import Mathlib

/-!
Shallow embedding of `backend.py` (Expense Tracker API: Flask + SQLite) and
verification of the specification's claims about it.

Conventions of the embedding:
* Python `Decimal` values are modelled exactly: finite decimals as an integer
  coefficient with a power-of-ten scale, plus infinities and NaN (`PyDec`).
  The decimal numeric-string grammar of the
  `Decimal` constructor (optional sign, digits with optional point, optional
  exponent, `Infinity`/`NaN` tokens, underscores and surrounding whitespace
  removed first) is implemented character by character.
* Python values that can show up as JSON fields are modelled by `PyVal`.  A
  float is represented by its `str()` (shortest round-trip repr), which is the
  exact string the source feeds to `Decimal`; an int is fed to `Decimal` via
  `str()` which is exact, so it is modelled by its exact value.
* The SQLite store is modelled as in-memory lists: a table of expense rows and
  a table of idempotency-key mappings, with `AUTOINCREMENT` as a `nextId`
  counter.
* `hashlib.sha256(...).hexdigest()` is an external library routine; the
  functions that use it take the digest function as an explicit parameter
  `hash : String → String`.
-/

namespace Backend

/-- ASCII digit test. -/
def isDigit (c : Char) : Bool := '0' ≤ c && c ≤ '9'

/-- Value of a list of ASCII digits read in base 10. -/
def digitsToNat (l : List Char) : ℕ :=
  l.foldl (fun a c => a * 10 + (c.toNat - '0'.toNat)) 0

/-- The whitespace characters Python's `str.strip()` removes
(ASCII subset: space, tab, newline, carriage return, vertical tab, form feed). -/
def isPySpace (c : Char) : Bool :=
  c = ' ' || c = '\t' || c = '\n' || c = '\r' || c = '\x0b' || c = '\x0c'

/-- Python `str.strip()`: drop leading and trailing whitespace. -/
def pyStrip (s : String) : String :=
  ⟨((s.toList.dropWhile isPySpace).reverse.dropWhile isPySpace).reverse⟩

/-- A Python `Decimal` value: a finite decimal `m / 10 ^ e` (mirroring
`Decimal`'s exact coefficient/exponent representation, with non-negative
exponents multiplied out into the coefficient — value-preserving, and the code
under verification only depends on the value), a signed infinity, or a NaN
(quiet or signaling; the distinction is irrelevant here, both signal on
comparison). -/
inductive PyDec where
  | fin (m : ℤ) (e : ℕ)
  | inf (neg : Bool)
  | nan
deriving DecidableEq

/-- Exact rational value of a finite `PyDec`. -/
def PyDec.val : PyDec → Option ℚ
  | .fin m e => some ((m : ℚ) / 10 ^ e)
  | _ => none

/-- Split a leading `+`/`-` sign off a character list. -/
def splitSign : List Char → Bool × List Char
  | '+' :: rest => (false, rest)
  | '-' :: rest => (true, rest)
  | rest => (false, rest)

/-- `NaN` / `sNaN` token with optional diagnostic digits (input already
lower-cased). -/
def isNanToken : List Char → Bool
  | 's' :: 'n' :: 'a' :: 'n' :: rest => rest.all isDigit
  | 'n' :: 'a' :: 'n' :: rest => rest.all isDigit
  | _ => false

/-- Exponent part of a decimal numeric string: `[sign] digits`. -/
def parseExpPart (l : List Char) : Option ℤ :=
  let (neg, ds) := splitSign l
  if ds ≠ [] && ds.all isDigit then
    some (if neg then -(digitsToNat ds : ℤ) else (digitsToNat ds : ℤ))
  else none

/-- Mantissa of a decimal numeric string: `digits [. [digits]]` or `. digits`
(at least one digit overall).  Returns the digit value and the number of
fractional digits, so the exact value is `n / 10 ^ frac`. -/
def parseMantissa (l : List Char) : Option (ℕ × ℕ) :=
  match l.span (· ≠ '.') with
  | (intPart, []) =>
    if intPart ≠ [] && intPart.all isDigit then some (digitsToNat intPart, 0)
    else none
  | (intPart, _ :: fracPart) =>
    if (intPart ++ fracPart) ≠ [] && intPart.all isDigit && fracPart.all isDigit then
      some (digitsToNat (intPart ++ fracPart), fracPart.length)
    else none

/-- Numeric part (mantissa with optional `e`/`E` exponent) of a decimal
string.  The exponent is folded into the coefficient/scale pair: the result
`(n, e)` denotes the exact value `n / 10 ^ e`. -/
def parseNumeric (l : List Char) : Option (ℕ × ℕ) :=
  match l.span (fun c => c ≠ 'e' && c ≠ 'E') with
  | (mant, []) => parseMantissa mant
  | (mant, _ :: expPart) =>
    match parseMantissa mant, parseExpPart expPart with
    | some (n, frac), some ex =>
      if (frac : ℤ) ≤ ex then some (n * 10 ^ (ex - frac).toNat, 0)
      else some (n, ((frac : ℤ) - ex).toNat)
    | _, _ => none

/-- The `Decimal(string)` constructor: surrounding whitespace and all
underscores are removed, then the decimal numeric-string grammar is applied
(case-insensitive `Infinity`/`Inf`, `NaN`/`sNaN` with optional payload digits,
or `[sign] numeric`).  `none` models the `InvalidOperation` the constructor
raises on a malformed string. -/
def decFromChars (l : List Char) : Option PyDec :=
  let cleaned := (((l.dropWhile isPySpace).reverse.dropWhile isPySpace).reverse).filter
    (· ≠ '_')
  let (neg, rest) := splitSign cleaned
  let low := rest.map Char.toLower
  if low = "inf".toList || low = "infinity".toList then some (.inf neg)
  else if isNanToken low then some .nan
  else
    match parseNumeric rest with
    | some (n, e) => some (.fin (if neg then -(n : ℤ) else (n : ℤ)) e)
    | none => none

/-- Round the fraction `num / den` (for `den > 0`) to the nearest integer,
ties to the even integer (round-half-even, the rounding `Decimal.quantize`
uses by default).  `Int.ediv`/`Int.emod` give floor division for a positive
divisor. -/
def rhe (num den : ℤ) : ℤ :=
  if 2 * (num % den) < den then num / den
  else if den < 2 * (num % den) then num / den + 1
  else if (num / den) % 2 = 0 then num / den else num / den + 1

/-- `Decimal.quantize(Decimal('0.01'))` followed by `int(dec * 100)` on the
finite decimal `m / 10 ^ e`: round the paise value `m * 100 / 10 ^ e`
half-even; the default decimal context (precision 28) raises
`InvalidOperation` when the resulting coefficient needs more than 28 digits. -/
def quantizePaise (m : ℤ) (e : ℕ) : Option ℤ :=
  if (rhe (m * 100) (10 ^ e)).natAbs < 10 ^ 28 then some (rhe (m * 100) (10 ^ e))
  else none

/-- A Python value as it can arrive from a parsed JSON body (or `None` for a
missing field).  A float is represented by its `str()` repr; a list/dict by
the contents of its `str()` between the brackets. -/
inductive PyVal where
  | vNone
  | vBool (b : Bool)
  | vInt (n : ℤ)
  | vFloat (r : String)
  | vStr (s : String)
  | vList (c : String)
  | vDict (c : String)
deriving DecidableEq

/-- Python `str(value)`. -/
def pyStr : PyVal → String
  | .vNone => "None"
  | .vBool true => "True"
  | .vBool false => "False"
  | .vInt n => toString n
  | .vFloat r => r
  | .vStr s => s
  | .vList c => "[" ++ c ++ "]"
  | .vDict c => "\x7b" ++ c ++ "\x7d"

/-- Python truthiness of a `PyVal` (`0.0` and `-0.0` are the reprs of the
falsy floats; an empty list/dict prints with nothing between the brackets). -/
def pyTruthy : PyVal → Bool
  | .vNone => false
  | .vBool b => b
  | .vInt n => n ≠ 0
  | .vFloat r => ¬(r = "0.0" || r = "-0.0")
  | .vStr s => s ≠ ""
  | .vList c => c ≠ ""
  | .vDict c => c ≠ ""

/-- Lines 74–78 of `_parse_amount`: the `Decimal` conversion.
`Decimal(str(value))` for `int`/`float` (`bool` is an `int` in Python, and
`str(True)` is not a decimal string; `str` of an `int` is fed to `Decimal`
exactly, so an int converts to its exact value), otherwise
`Decimal(str(value).strip())`.  `none` models a raised `InvalidOperation`. -/
def decOfPyVal : PyVal → Option PyDec
  | .vNone => none
  | .vInt n => some (.fin n 0)
  | .vBool b => decFromChars (pyStr (.vBool b)).toList
  | .vFloat r => decFromChars r.toList
  | v => decFromChars (pyStrip (pyStr v)).toList

/-- Lines 79–86 of `_parse_amount`: after the `Decimal` conversion, the
`dec < 0` comparison (which signals `InvalidOperation` on NaN, and is true
for `-Infinity`), then `quantize`/`int(dec * 100)` (which signals on
`+Infinity` and on a paise coefficient of more than 28 digits); the
`except` clause turns any signal into the invalid-number error. -/
def amountFromDec : Option PyDec → Option ℤ × Option String
  | none => (none, some "Amount must be a valid number")
  | some .nan => (none, some "Amount must be a valid number")
  | some (.inf true) => (none, some "Amount must be non-negative")
  | some (.inf false) => (none, some "Amount must be a valid number")
  | some (.fin m e) =>
    if m < 0 then (none, some "Amount must be non-negative")
    else
      match quantizePaise m e with
      | some p => (some p, none)
      | none => (none, some "Amount must be a valid number")

/-- `backend.py` lines 69–86, `_parse_amount(value)`: parse an amount to paise
(integer), rejecting missing, invalid and negative values.  Returns
`(paise, error)` with exactly one component present, like the source's
tuple. -/
def _parse_amount (value : PyVal) : Option ℤ × Option String :=
  match value with
  | .vNone => (none, some "Amount is required")
  | v => amountFromDec (decOfPyVal v)

/-- Proleptic-Gregorian leap-year rule used by Python `datetime`. -/
def isLeapYear (y : ℕ) : Bool :=
  y % 4 = 0 && (y % 100 ≠ 0 || y % 400 = 0)

/-- Days in a month of the proleptic Gregorian calendar. -/
def daysInMonth (y m : ℕ) : ℕ :=
  if m = 2 then (if isLeapYear y then 29 else 28)
  else if m = 4 || m = 6 || m = 9 || m = 11 then 30
  else 31

/-- The pattern-matching stage of `datetime.strptime(s, '%Y-%m-%d')`: the
compiled regex requires exactly four year digits, then `-`, then a one- or
two-digit month in 1..12 (zero-padding optional: `1[0-2]|0[1-9]|[1-9]`), then
`-`, then a one- or two-digit day in 1..31 (`3[01]|[12]\d|0[1-9]|[1-9]`), and
the whole string must be consumed.  Returns `(year, month, day)`. -/
def strptimeYMD (s : String) : Option (ℕ × ℕ × ℕ) :=
  match s.toList with
  | y1 :: y2 :: y3 :: y4 :: '-' :: rest =>
    if [y1, y2, y3, y4].all isDigit then
      match rest.span (· ≠ '-') with
      | (mRun, '-' :: dRun) =>
        if mRun.all isDigit && 1 ≤ mRun.length && mRun.length ≤ 2
            && dRun.all isDigit && 1 ≤ dRun.length && dRun.length ≤ 2 then
          if 1 ≤ digitsToNat mRun && digitsToNat mRun ≤ 12
              && 1 ≤ digitsToNat dRun && digitsToNat dRun ≤ 31 then
            some (digitsToNat [y1, y2, y3, y4], digitsToNat mRun, digitsToNat dRun)
          else none
        else none
      | _ => none
    else none
  | _ => none

/-- `datetime.strptime(s, '%Y-%m-%d')` succeeding without `ValueError`:
the pattern stage above, then the `datetime` constructor's range checks
(`MINYEAR = 1`, so year `0000` is rejected; the day must exist in the
month). -/
def validDateYMD (s : String) : Bool :=
  match strptimeYMD s with
  | some (y, m, d) => 1 ≤ y && d ≤ daysInMonth y m
  | none => false

/-- A row of the `expenses` table (`backend.py` lines 40–49). -/
structure ExpenseRow where
  id : ℕ
  amount_paise : ℤ
  category : String
  description : String
  date : String
  created_at : String
deriving DecidableEq

/-- `⌊log2 n⌋` by fuel-counted halving (structural recursion so the kernel
can evaluate it; `fuel ≥ n` suffices because the argument at least halves
each step). -/
def log2Fuel : ℕ → ℕ → ℕ
  | 0, _ => 0
  | fuel + 1, n => if 2 ≤ n then log2Fuel fuel (n / 2) + 1 else 0

/-- `⌊log2 n⌋` for `n ≥ 1` (0 for `n = 0`). -/
def natLog2 (n : ℕ) : ℕ := log2Fuel n n

/-- `2 ^ k ≤ num / den` for an integer `k`, decided by integer comparison. -/
def pow2LeFrac (k : ℤ) (num den : ℕ) : Bool :=
  if 0 ≤ k then den * 2 ^ k.toNat ≤ num else den ≤ num * 2 ^ (-k).toNat

/-- `⌊log2 (num / den)⌋` for `num, den ≥ 1`: `natLog2` brackets numerator and
denominator within a factor of two, so the floor is the candidate
`natLog2 num - natLog2 den` or one less. -/
def floorLog2Frac (num den : ℕ) : ℤ :=
  if pow2LeFrac ((natLog2 num : ℤ) - (natLog2 den : ℤ)) num den then
    (natLog2 num : ℤ) - (natLog2 den : ℤ)
  else (natLog2 num : ℤ) - (natLog2 den : ℤ) - 1

/-- The quantum exponent of the IEEE-754 binary64 value nearest to
`num / den`: `⌊log2⌋ - 52` for normal numbers, floored at `-1074` in the
subnormal range. -/
def doubleQuantum (num den : ℕ) : ℤ :=
  max (floorLog2Frac num den - 52) (-1074)

/-- The integer multiple of the quantum nearest to `num / den`, ties to even
(IEEE-754 round-to-nearest-even). -/
def doubleMantissa (num den : ℕ) : ℤ :=
  if doubleQuantum num den ≤ 0 then
    rhe (num * 2 ^ (-doubleQuantum num den).toNat) den
  else rhe num (den * 2 ^ (doubleQuantum num den).toNat)

/-- The IEEE-754 binary64 (CPython `float`) value nearest to `num / den`,
round-to-nearest-even: the correctly rounded result of float division of two
non-negative integers.  (Quotients at or above `2^1024` would overflow to
infinity; this program divides paise below `10^28` by 100, so its quotients
stay far below that and are always finite.) -/
def roundDoubleFrac (num den : ℕ) : ℚ :=
  if num = 0 then 0
  else (doubleMantissa num den : ℚ) * (2 : ℚ) ^ doubleQuantum num den

/-- CPython's `p / 100` on an int `p`: true division producing the correctly
rounded binary64 double of the exact quotient (negative numerators round
symmetrically). -/
def pyDivide100 (p : ℤ) : ℚ :=
  if p < 0 then -(roundDoubleFrac p.natAbs 100) else roundDoubleFrac p.natAbs 100

/-- The API response object built by `_row_to_expense` (`backend.py` lines
89–98): the amount is converted back to rupees as `amount_paise / 100`,
Python float division — the binary64 double nearest to the exact quotient. -/
structure ExpenseOut where
  id : ℕ
  amount : ℚ
  category : String
  description : String
  date : String
  created_at : String
deriving DecidableEq

/-- `backend.py` lines 89–98, `_row_to_expense(row)`. -/
def _row_to_expense (r : ExpenseRow) : ExpenseOut :=
  { id := r.id
    amount := pyDivide100 r.amount_paise
    category := r.category
    description := r.description
    date := r.date
    created_at := r.created_at }

/-- The durable store: the `expenses` table (in insertion order), the
`idempotency_keys` table (key, expense id, created_at), and the next
`AUTOINCREMENT` id. -/
structure DB where
  expenses : List ExpenseRow
  idem : List (String × ℕ × String)
  nextId : ℕ
deriving DecidableEq

/-- The empty store right after `init_db()` on a fresh database
(`AUTOINCREMENT` starts at 1). -/
def DB.empty : DB := ⟨[], [], 1⟩

/-- `SELECT expense_id FROM idempotency_keys WHERE idempotency_key = ?`
(the key is the primary key, so at most one row matches). -/
def lookupIdem (db : DB) (k : String) : Option ℕ :=
  (db.idem.find? (fun p => p.1 = k)).map (fun p => p.2.1)

/-- `SELECT * FROM expenses WHERE id = ?` (id is the primary key). -/
def findExpense (db : DB) (eid : ℕ) : Option ExpenseRow :=
  db.expenses.find? (fun r => r.id = eid)

/-- `INSERT OR REPLACE INTO idempotency_keys ...`: replace the row with this
primary key if present, else append. -/
def insertOrReplaceIdem (l : List (String × ℕ × String)) (k : String) (eid : ℕ)
    (ts : String) : List (String × ℕ × String) :=
  if l.any (fun p => p.1 = k) then
    l.map (fun p => if p.1 = k then (k, eid, ts) else p)
  else l ++ [(k, eid, ts)]

/-- `backend.py` lines 101–110, `_get_idempotency_key()`: the raw
`Idempotency-Key` header if truthy (non-empty before trimming), trimmed;
otherwise the hex SHA-256 digest of the raw body when the body is non-empty;
otherwise `None`.  The digest function is the explicit parameter `hash`. -/
def _get_idempotency_key (hash : String → String) (header : Option String)
    (body : String) : Option String :=
  if header.getD "" ≠ "" then some (pyStrip (header.getD ""))
  else if body ≠ "" then some (hash body)
  else none

/-- The key `create_expense` actually uses: line 145's `if idempotency_key:`
treats the empty string (a whitespace-only header after trimming) like
`None`, skipping idempotency. -/
def usedIdempotencyKey (hash : String → String) (header : Option String)
    (body : String) : Option String :=
  match _get_idempotency_key hash header body with
  | some k => if k = "" then none else some k
  | none => none

/-- `data.get(k)` on the parsed JSON object: the field's value, or Python
`None` when the key is absent (keys of a parsed JSON object are unique). -/
def dictGet (data : List (String × PyVal)) (k : String) : PyVal :=
  match data.find? (fun p => p.1 = k) with
  | some p => p.2
  | none => .vNone

/-- `(value or '').strip()` as used on lines 123–125: a falsy value is
replaced by `''`; a truthy string is stripped; a truthy non-string has no
`.strip()` and raises `AttributeError` (modelled as `none` — an unhandled
server fault, not a 400 response). -/
def pyOrEmptyStrip (v : PyVal) : Option String :=
  if pyTruthy v then
    match v with
    | .vStr s => some (pyStrip s)
    | _ => none
  else some ""

/-- A response of `POST /expenses`: HTTP 201 with the expense object, or
HTTP 400 with `{error: msg}`. -/
inductive CreateResp where
  | created (e : ExpenseOut)
  | badRequest (msg : String)
deriving DecidableEq

/-- The insert path of `create_expense` (lines 160–175): insert the expense
row with the next `AUTOINCREMENT` id, insert-or-replace the key mapping when
a key is in use, commit, and return the freshly inserted row (the re-`SELECT`
by primary key returns exactly the inserted row, since `AUTOINCREMENT` never
reuses an id). -/
def insertExpense (db : DB) (paise : ℤ) (category description date now : String)
    (key : Option String) : CreateResp × DB :=
  let row : ExpenseRow :=
    ⟨db.nextId, paise, category, description, date, now⟩
  let idem :=
    match key with
    | some k => insertOrReplaceIdem db.idem k db.nextId now
    | none => db.idem
  (.created (_row_to_expense row), ⟨db.expenses ++ [row], idem, db.nextId + 1⟩)

/-- `backend.py` lines 113–175, `create_expense()`.  Inputs: the digest
function, the store, the `Idempotency-Key` header, the raw body text, the
parsed JSON body (`none` when `request.get_json(force=True, silent=True)`
returns `None`, i.e. the body is absent or unparseable; the handler only
supports object bodies — a non-object body crashes on `data.get`), and the
server clock value used for `created_at`.  Returns the response and the new
store state, or `none` for an unhandled exception (HTTP 500). -/
def create_expense (hash : String → String) (db : DB) (header : Option String)
    (body : String) (data : Option (List (String × PyVal))) (now : String) :
    Option (CreateResp × DB) :=
  match data with
  | none => some (.badRequest "Invalid JSON", db)
  | some fields =>
    -- `if not data:` — an empty dict is falsy and is also answered this way
    if fields.isEmpty then some (.badRequest "Invalid JSON", db)
    else
      match pyOrEmptyStrip (dictGet fields "category"),
          pyOrEmptyStrip (dictGet fields "description"),
          pyOrEmptyStrip (dictGet fields "date") with
      | some category, some description, some date =>
        match _parse_amount (dictGet fields "amount") with
        | (_, some msg) => some (.badRequest msg, db)
        | (none, none) => none
        | (some paise, none) =>
          if category = "" then some (.badRequest "Category is required", db)
          else if date = "" then some (.badRequest "Date is required", db)
          else if !validDateYMD date then
            some (.badRequest "Date must be in YYYY-MM-DD format", db)
          else
            match usedIdempotencyKey hash header body with
            | some k =>
              match lookupIdem db k with
              | some eid =>
                match findExpense db eid with
                | some row => some (.created (_row_to_expense row), db)
                | none => some (insertExpense db paise category description date now (some k))
              | none => some (insertExpense db paise category description date now (some k))
            | none => some (insertExpense db paise category description date now none)
      | _, _, _ => none

/-- `ORDER BY date ASC, created_at ASC` as a relation on rows (SQLite compares
these `TEXT` columns with the default `BINARY` collation, i.e.
lexicographically). -/
def dateAscLE (a b : ExpenseRow) : Prop :=
  a.date < b.date ∨ (a.date = b.date ∧ a.created_at ≤ b.created_at)

/-- `ORDER BY date DESC, created_at DESC` as a relation on rows. -/
def dateDescLE (a b : ExpenseRow) : Prop :=
  b.date < a.date ∨ (a.date = b.date ∧ b.created_at ≤ a.created_at)

instance : DecidableRel dateAscLE := fun a b => by
  unfold dateAscLE; infer_instance

instance : DecidableRel dateDescLE := fun a b => by
  unfold dateDescLE; infer_instance

/-- `backend.py` lines 178–199, `get_expenses()`.  The query parameters
default to `''` when absent and are stripped; a non-empty category restricts
to exact matches; the `ORDER BY` is modelled as a sort by the corresponding
relation (rows tied on both columns come back in an order SQLite does not
specify). -/
def get_expenses (db : DB) (categoryParam sortParam : String) : List ExpenseOut :=
  let category := pyStrip categoryParam
  let sort := pyStrip sortParam
  let rows :=
    if category ≠ "" then db.expenses.filter (fun r => r.category = category)
    else db.expenses
  let sorted :=
    if sort = "date_asc" then List.insertionSort dateAscLE rows
    else List.insertionSort dateDescLE rows
  sorted.map _row_to_expense

/-! ## Helper lemmas -/

theorem find?_append_singleton {α : Type} (p : α → Bool) (l : List α) (x : α)
    (h : ∀ y ∈ l, ¬ p y) (hx : p x) : (l ++ [x]).find? p = some x := by
  induction l with
  | nil => simp [hx]
  | cons a t ih =>
    have ha : ¬ p a := h a (by simp)
    rw [List.cons_append, List.find?_cons_of_neg _ ha]
    exact ih fun y hy => h y (List.mem_cons_of_mem _ hy)

/-- A fresh key's mapping lands at the end of the table and is then found. -/
theorem insertOrReplaceIdem_fresh_find (l : List (String × ℕ × String))
    (k : String) (eid : ℕ) (ts : String)
    (h : l.find? (fun p => p.1 = k) = none) :
    (insertOrReplaceIdem l k eid ts).find? (fun p => p.1 = k)
      = some (k, eid, ts) := by
  have hall := List.find?_eq_none.mp h
  have hany : l.any (fun p => p.1 = k) = false :=
    List.any_eq_false.mpr hall
  unfold insertOrReplaceIdem
  simp only [hany, Bool.false_eq_true, if_false]
  exact find?_append_singleton _ _ _ hall (by simp)

/-- `rhe` is exact on exact multiples. -/
theorem rhe_exact (z d : ℤ) (hd : 0 < d) : rhe (z * d) d = z := by
  unfold rhe
  have h1 : z * d % d = 0 := Int.mul_emod_left z d
  have h2 : z * d / d = z := Int.mul_ediv_cancel z (ne_of_gt hd)
  rw [h1, h2]
  simp [hd]

theorem rhe_nonneg (num den : ℤ) (h : 0 ≤ num) (hd : 0 < den) :
    0 ≤ rhe num den := by
  unfold rhe
  have hq : 0 ≤ num / den := Int.ediv_nonneg h (le_of_lt hd)
  split
  · exact hq
  · split
    · omega
    · split <;> omega

theorem amountFromDec_total (o : Option PyDec) :
    (∃ p : ℤ, 0 ≤ p ∧ amountFromDec o = (some p, none)) ∨
    (∃ msg : String, msg ≠ "" ∧ amountFromDec o = (none, some msg)) := by
  match o with
  | none => right; exact ⟨"Amount must be a valid number", by decide, rfl⟩
  | some .nan => right; exact ⟨"Amount must be a valid number", by decide, rfl⟩
  | some (.inf true) => right; exact ⟨"Amount must be non-negative", by decide, rfl⟩
  | some (.inf false) => right; exact ⟨"Amount must be a valid number", by decide, rfl⟩
  | some (.fin m e) =>
    by_cases hm : m < 0
    · right
      refine ⟨"Amount must be non-negative", by decide, ?_⟩
      simp only [amountFromDec, quantizePaise]
      rw [if_pos hm]
    · by_cases hfit : (rhe (m * 100) (10 ^ e)).natAbs < 10 ^ 28
      · left
        refine ⟨rhe (m * 100) (10 ^ e),
          rhe_nonneg _ _ (by omega) (by positivity), ?_⟩
        simp only [amountFromDec, quantizePaise]
        rw [if_neg hm, if_pos hfit]
      · right
        refine ⟨"Amount must be a valid number", by decide, ?_⟩
        simp only [amountFromDec, quantizePaise]
        rw [if_neg hm, if_neg hfit]

/-- Totality and safety of the amount parser: every value yields either a
non-negative paise count and no error, or no value and a non-empty error
message. -/
theorem parse_amount_total (v : PyVal) :
    (∃ p : ℤ, 0 ≤ p ∧ _parse_amount v = (some p, none)) ∨
    (∃ msg : String, msg ≠ "" ∧ _parse_amount v = (none, some msg)) := by
  match v with
  | .vNone => right; exact ⟨"Amount is required", by decide, rfl⟩
  | .vBool b => simp only [_parse_amount]; exact amountFromDec_total _
  | .vInt n => simp only [_parse_amount]; exact amountFromDec_total _
  | .vFloat r => simp only [_parse_amount]; exact amountFromDec_total _
  | .vStr s => simp only [_parse_amount]; exact amountFromDec_total _
  | .vList c => simp only [_parse_amount]; exact amountFromDec_total _
  | .vDict c => simp only [_parse_amount]; exact amountFromDec_total _

/-- Half-even rounding is never more than half a unit away:
`-den ≤ 2 * (num - rhe num den * den) ≤ den`. -/
theorem rhe_nearest (num den : ℤ) (hd : 0 < den) :
    -den ≤ 2 * (num - rhe num den * den) ∧
      2 * (num - rhe num den * den) ≤ den := by
  have h1 := Int.ediv_add_emod num den
  have h2 : 0 ≤ num % den := Int.emod_nonneg num (ne_of_gt hd)
  have h3 : num % den < den := Int.emod_lt_of_pos num hd
  unfold rhe
  split_ifs <;> constructor <;> nlinarith

/-- On an exact tie (the remainder is exactly half the divisor), half-even
rounding returns an even integer. -/
theorem rhe_tie_even (num den : ℤ) (htie : 2 * (num % den) = den) :
    rhe num den % 2 = 0 := by
  unfold rhe
  split_ifs <;> omega

instance : IsTrans ExpenseRow dateAscLE where
  trans a b c hab hbc := by
    rcases hab with h1 | ⟨h1, h1'⟩ <;> rcases hbc with h2 | ⟨h2, h2'⟩
    · exact Or.inl (lt_trans h1 h2)
    · exact Or.inl (h2 ▸ h1)
    · exact Or.inl (h1 ▸ h2)
    · exact Or.inr ⟨h1.trans h2, le_trans h1' h2'⟩

instance : IsTotal ExpenseRow dateAscLE where
  total a b := by
    rcases lt_trichotomy a.date b.date with h | h | h
    · exact Or.inl (Or.inl h)
    · rcases le_total a.created_at b.created_at with h' | h'
      · exact Or.inl (Or.inr ⟨h, h'⟩)
      · exact Or.inr (Or.inr ⟨h.symm, h'⟩)
    · exact Or.inr (Or.inl h)

instance : IsTrans ExpenseRow dateDescLE where
  trans a b c hab hbc := by
    rcases hab with h1 | ⟨h1, h1'⟩ <;> rcases hbc with h2 | ⟨h2, h2'⟩
    · exact Or.inl (lt_trans h2 h1)
    · exact Or.inl (h2 ▸ h1)
    · exact Or.inl (h1 ▸ h2)
    · exact Or.inr ⟨h1.trans h2, le_trans h2' h1'⟩

instance : IsTotal ExpenseRow dateDescLE where
  total a b := by
    rcases lt_trichotomy a.date b.date with h | h | h
    · exact Or.inr (Or.inl h)
    · rcases le_total a.created_at b.created_at with h' | h'
      · exact Or.inr (Or.inr ⟨h.symm, h'⟩)
      · exact Or.inl (Or.inr ⟨h, h'⟩)
    · exact Or.inl (Or.inl h)

/-- `dateAscLE` seen on the response objects. -/
def outAscLE (a b : ExpenseOut) : Prop :=
  a.date < b.date ∨ (a.date = b.date ∧ a.created_at ≤ b.created_at)

/-- `dateDescLE` seen on the response objects. -/
def outDescLE (a b : ExpenseOut) : Prop :=
  b.date < a.date ∨ (a.date = b.date ∧ b.created_at ≤ a.created_at)

/-- `create_expense` on a request that passes every validation reduces to the
idempotency lookup / insert block (lines 140–175). -/
theorem create_reaches_idem (hash : String → String) (db : DB)
    (header : Option String) (body : String) (fields : List (String × PyVal))
    (now : String) (cat desc date : String) (paise : ℤ)
    (hne : fields ≠ [])
    (hcat : pyOrEmptyStrip (dictGet fields "category") = some cat)
    (hdesc : pyOrEmptyStrip (dictGet fields "description") = some desc)
    (hdate : pyOrEmptyStrip (dictGet fields "date") = some date)
    (hamt : _parse_amount (dictGet fields "amount") = (some paise, none))
    (hcatne : cat ≠ "") (hdatene : date ≠ "")
    (hvalid : validDateYMD date = true) :
    create_expense hash db header body (some fields) now =
      (match usedIdempotencyKey hash header body with
       | some k =>
         match lookupIdem db k with
         | some eid =>
           match findExpense db eid with
           | some row => some (.created (_row_to_expense row), db)
           | none => some (insertExpense db paise cat desc date now (some k))
         | none => some (insertExpense db paise cat desc date now (some k))
       | none => some (insertExpense db paise cat desc date now none)) := by
  match fields, hne with
  | f :: fs, _ =>
    simp only [create_expense, List.isEmpty_cons, Bool.false_eq_true, if_false,
      hcat, hdesc, hdate, hamt, hvalid, Bool.not_true]
    rw [if_neg hcatne, if_neg hdatene]

/-! ## Claims -/

/-- C1: two sequential creates with the same determined idempotency key (the
second issued against the state the first left behind, with the key fresh
before the first): the second call returns the very Expense the first created
(same id, same 201-style `created` response), writes nothing (the store is
unchanged, so no new row and no new key mapping), the two calls add exactly
one row overall, and the key maps to exactly one stored record. -/
theorem C1_idempotent_retry (hash : String → String) (db : DB)
    (header : Option String) (body : String) (fields : List (String × PyVal))
    (now now2 : String) (k cat desc date : String) (paise : ℤ)
    (hne : fields ≠ [])
    (hcat : pyOrEmptyStrip (dictGet fields "category") = some cat)
    (hdesc : pyOrEmptyStrip (dictGet fields "description") = some desc)
    (hdate : pyOrEmptyStrip (dictGet fields "date") = some date)
    (hamt : _parse_amount (dictGet fields "amount") = (some paise, none))
    (hcatne : cat ≠ "") (hdatene : date ≠ "")
    (hvalid : validDateYMD date = true)
    (hkey : usedIdempotencyKey hash header body = some k)
    (hfresh : lookupIdem db k = none)
    (hids : ∀ r ∈ db.expenses, r.id < db.nextId) :
    ∃ e db1,
      create_expense hash db header body (some fields) now
        = some (.created e, db1) ∧
      create_expense hash db1 header body (some fields) now2
        = some (.created e, db1) ∧
      db1.expenses.length = db.expenses.length + 1 ∧
      lookupIdem db1 k = some e.id ∧
      db1.expenses.countP (fun r => r.id = e.id) = 1 := by
  have hfind0 : db.idem.find? (fun p => p.1 = k) = none := by
    unfold lookupIdem at hfresh
    exact Option.map_eq_none'.mp hfresh
  refine ⟨_row_to_expense ⟨db.nextId, paise, cat, desc, date, now⟩,
    ⟨db.expenses ++ [⟨db.nextId, paise, cat, desc, date, now⟩],
      insertOrReplaceIdem db.idem k db.nextId now, db.nextId + 1⟩,
    ?_, ?_, ?_, ?_, ?_⟩
  · rw [create_reaches_idem hash db header body fields now cat desc date paise
      hne hcat hdesc hdate hamt hcatne hdatene hvalid]
    simp only [hkey, hfresh]
    rfl
  · rw [create_reaches_idem hash _ header body fields now2 cat desc date paise
      hne hcat hdesc hdate hamt hcatne hdatene hvalid]
    have hlook1 : lookupIdem
        ⟨db.expenses ++ [⟨db.nextId, paise, cat, desc, date, now⟩],
          insertOrReplaceIdem db.idem k db.nextId now, db.nextId + 1⟩ k
        = some db.nextId := by
      unfold lookupIdem
      rw [show (DB.idem ⟨db.expenses ++ [⟨db.nextId, paise, cat, desc, date, now⟩],
        insertOrReplaceIdem db.idem k db.nextId now, db.nextId + 1⟩)
        = insertOrReplaceIdem db.idem k db.nextId now from rfl]
      rw [insertOrReplaceIdem_fresh_find _ _ _ _ hfind0]
      rfl
    have hfindex : findExpense
        ⟨db.expenses ++ [⟨db.nextId, paise, cat, desc, date, now⟩],
          insertOrReplaceIdem db.idem k db.nextId now, db.nextId + 1⟩ db.nextId
        = some ⟨db.nextId, paise, cat, desc, date, now⟩ := by
      unfold findExpense
      apply find?_append_singleton
      · intro y hy
        have := hids y hy
        simp only [decide_eq_true_eq]
        omega
      · simp
    simp only [hkey, hlook1, hfindex]
  · simp
  · unfold lookupIdem
    rw [show (DB.idem ⟨db.expenses ++ [⟨db.nextId, paise, cat, desc, date, now⟩],
      insertOrReplaceIdem db.idem k db.nextId now, db.nextId + 1⟩)
      = insertOrReplaceIdem db.idem k db.nextId now from rfl]
    rw [insertOrReplaceIdem_fresh_find _ _ _ _ hfind0]
    rfl
  · have h0 : db.expenses.countP (fun r => r.id = db.nextId) = 0 :=
      List.countP_eq_zero.mpr (by
        intro a ha
        have := hids a ha
        simp only [decide_eq_true_eq]
        omega)
    have h1 : (db.expenses
        ++ [(⟨db.nextId, paise, cat, desc, date, now⟩ : ExpenseRow)]).countP
        (fun r => r.id = db.nextId) = 1 := by
      rw [List.countP_append, h0]
      simp
    exact h1

/-- Witness for C1 at a concrete input: header key `"KEY"`, a fresh store. -/
theorem C1_idempotent_retry_witness :
    ∃ e db1,
      create_expense (fun s => s) DB.empty (some "KEY") "B"
          (some [("amount", .vInt 5), ("category", .vStr "Food"),
            ("description", .vStr "x"), ("date", .vStr "2025-02-18")]) "T1"
        = some (.created e, db1) ∧
      create_expense (fun s => s) db1 (some "KEY") "B"
          (some [("amount", .vInt 5), ("category", .vStr "Food"),
            ("description", .vStr "x"), ("date", .vStr "2025-02-18")]) "T2"
        = some (.created e, db1) ∧
      db1.expenses.length = DB.empty.expenses.length + 1 ∧
      lookupIdem db1 "KEY" = some e.id ∧
      db1.expenses.countP (fun r => r.id = e.id) = 1 :=
  C1_idempotent_retry (fun s => s) DB.empty (some "KEY") "B"
    [("amount", .vInt 5), ("category", .vStr "Food"),
      ("description", .vStr "x"), ("date", .vStr "2025-02-18")]
    "T1" "T2" "KEY" "Food" "x" "2025-02-18" 500
    (by decide) (by decide) (by decide) (by decide) (by decide)
    (by decide) (by decide) (by decide) (by decide) (by decide)
    (by intro r hr; simp [DB.empty] at hr)

/-- On a non-`None` value, `_parse_amount` is the post-`Decimal` logic applied
to the converted value. -/
theorem parse_amount_eq (v : PyVal) (h : v ≠ .vNone) :
    _parse_amount v = amountFromDec (decOfPyVal v) := by
  cases v with
  | vNone => exact absurd rfl h
  | vBool b => rfl
  | vInt n => rfl
  | vFloat r => rfl
  | vStr s => rfl
  | vList c => rfl
  | vDict c => rfl

/-- A finite decimal whose value is an exact paise amount `z / 100` parses to
exactly `z` when `z` is non-negative and within the 28-digit context bound. -/
theorem amountFromDec_exact (m : ℤ) (e : ℕ) (z : ℤ)
    (hval : (m : ℚ) / 10 ^ e = (z : ℚ) / 100)
    (hz : 0 ≤ z) (hbound : z < 10 ^ 28) :
    amountFromDec (some (.fin m e)) = (some z, none) := by
  have hcross : m * 100 = z * 10 ^ e := by
    rw [div_eq_div_iff (by positivity) (by positivity)] at hval
    exact_mod_cast hval
  have hpow : (0 : ℤ) < 10 ^ e := by positivity
  have hm : ¬ m < 0 := by nlinarith
  have hrhe : rhe (m * 100) (10 ^ e) = z := by
    rw [hcross]
    exact rhe_exact z _ hpow
  have h28 : (10 : ℤ) ^ 28 = 10000000000000000000000000000 := by norm_num
  have h28n : (10 : ℕ) ^ 28 = 10000000000000000000000000000 := by norm_num
  have hfit : (rhe (m * 100) (10 ^ e)).natAbs < 10 ^ 28 := by
    rw [hrhe]
    omega
  simp only [amountFromDec, quantizePaise, hrhe]
  rw [if_neg hm, if_pos (hrhe ▸ hfit)]

/-- `log2Fuel` with enough fuel brackets its argument between consecutive
powers of two. -/
theorem log2Fuel_bracket (fuel n : ℕ) (hf : n ≤ fuel) (hn : 1 ≤ n) :
    2 ^ log2Fuel fuel n ≤ n ∧ n < 2 ^ (log2Fuel fuel n + 1) := by
  induction fuel generalizing n with
  | zero => omega
  | succ f ih =>
    by_cases h2 : 2 ≤ n
    · have hrec := ih (n / 2) (by omega) (by omega)
      simp only [log2Fuel, if_pos h2]
      have e1 : 2 ^ (log2Fuel f (n / 2) + 1) = 2 * 2 ^ log2Fuel f (n / 2) := by
        rw [pow_succ]; ring
      have e2 : 2 ^ (log2Fuel f (n / 2) + 1 + 1)
          = 2 * 2 ^ (log2Fuel f (n / 2) + 1) := by
        rw [pow_succ _ (log2Fuel f (n / 2) + 1)]; ring
      have h1 : 2 * 2 ^ log2Fuel f (n / 2) ≤ 2 * (n / 2) :=
        Nat.mul_le_mul_left 2 hrec.1
      have h2' : 2 * (n / 2) < 2 * 2 ^ (log2Fuel f (n / 2) + 1) :=
        (mul_lt_mul_left (show 0 < 2 by norm_num)).mpr hrec.2
      omega
    · have hn1 : n = 1 := by omega
      subst hn1
      simp [log2Fuel]

/-- `natLog2` is a genuine floor base-2 logarithm. -/
theorem natLog2_bracket (n : ℕ) (hn : 1 ≤ n) :
    2 ^ natLog2 n ≤ n ∧ n < 2 ^ (natLog2 n + 1) :=
  log2Fuel_bracket n n le_rfl hn

/-- `pow2LeFrac` decides the rational comparison it stands for. -/
theorem pow2LeFrac_iff (k : ℤ) (num den : ℕ) (hden : 1 ≤ den) :
    pow2LeFrac k num den = true ↔ (2 : ℚ) ^ k ≤ (num : ℚ) / den := by
  have hdenQ : (0 : ℚ) < den := by exact_mod_cast hden
  unfold pow2LeFrac
  by_cases hk : 0 ≤ k
  · rw [if_pos hk, decide_eq_true_eq, le_div_iff₀ hdenQ,
      show (2 : ℚ) ^ k = ((2 ^ k.toNat : ℕ) : ℚ) by
        rw [← Int.toNat_of_nonneg hk, zpow_natCast]
        norm_cast,
      show ((2 ^ k.toNat : ℕ) : ℚ) * den = ((2 ^ k.toNat * den : ℕ) : ℚ) by
        push_cast; ring,
      Nat.cast_le, Nat.mul_comm]
  · rw [if_neg hk, decide_eq_true_eq]
    obtain ⟨s, rfl⟩ : ∃ s : ℕ, k = -(s : ℤ) := ⟨(-k).toNat, by omega⟩
    rw [neg_neg, Int.toNat_natCast, zpow_neg, zpow_natCast, inv_eq_one_div,
      div_le_div_iff₀ (by positivity) hdenQ, one_mul,
      show (num : ℚ) * (2 : ℚ) ^ s = ((num * 2 ^ s : ℕ) : ℚ) by push_cast; ring,
      Nat.cast_le]

/-- `floorLog2Frac` brackets the fraction between consecutive powers of
two. -/
theorem floorLog2Frac_bracket (num den : ℕ) (hnum : 1 ≤ num) (hden : 1 ≤ den) :
    (2 : ℚ) ^ floorLog2Frac num den ≤ (num : ℚ) / den ∧
      (num : ℚ) / den < (2 : ℚ) ^ (floorLog2Frac num den + 1) := by
  have hdenQ : (0 : ℚ) < den := by exact_mod_cast hden
  obtain ⟨ha1, ha2⟩ := natLog2_bracket num hnum
  obtain ⟨hb1, hb2⟩ := natLog2_bracket den hden
  have hub : (num : ℚ) / den
      < (2 : ℚ) ^ ((natLog2 num : ℤ) - natLog2 den + 1) := by
    rw [div_lt_iff₀ hdenQ]
    have h1 : (num : ℚ) < (2 : ℚ) ^ (natLog2 num + 1) := by exact_mod_cast ha2
    have h2 : ((2 : ℚ)) ^ natLog2 den ≤ den := by exact_mod_cast hb1
    have key : ((2 : ℚ) ^ (natLog2 num + 1) : ℚ)
        = (2 : ℚ) ^ ((natLog2 num : ℤ) - natLog2 den + 1)
          * (2 : ℚ) ^ natLog2 den := by
      rw [← zpow_natCast (2 : ℚ) (natLog2 num + 1),
        ← zpow_natCast (2 : ℚ) (natLog2 den),
        ← zpow_add₀ (by norm_num : (2 : ℚ) ≠ 0)]
      congr 1
      push_cast
      ring
    calc (num : ℚ) < (2 : ℚ) ^ (natLog2 num + 1) := h1
    _ = (2 : ℚ) ^ ((natLog2 num : ℤ) - natLog2 den + 1)
        * (2 : ℚ) ^ natLog2 den := key
    _ ≤ (2 : ℚ) ^ ((natLog2 num : ℤ) - natLog2 den + 1) * den :=
        mul_le_mul_of_nonneg_left h2 (by positivity)
  have hlb : (2 : ℚ) ^ ((natLog2 num : ℤ) - natLog2 den - 1)
      < (num : ℚ) / den := by
    rw [lt_div_iff₀ hdenQ]
    have h1 : ((2 : ℚ)) ^ natLog2 num ≤ num := by exact_mod_cast ha1
    have h2 : (den : ℚ) < (2 : ℚ) ^ (natLog2 den + 1) := by exact_mod_cast hb2
    have key : (2 : ℚ) ^ ((natLog2 num : ℤ) - natLog2 den - 1)
        * (2 : ℚ) ^ (natLog2 den + 1) = (2 : ℚ) ^ natLog2 num := by
      rw [← zpow_natCast (2 : ℚ) (natLog2 num),
        ← zpow_natCast (2 : ℚ) (natLog2 den + 1),
        ← zpow_add₀ (by norm_num : (2 : ℚ) ≠ 0)]
      congr 1
      push_cast
      ring
    calc (2 : ℚ) ^ ((natLog2 num : ℤ) - natLog2 den - 1) * den
        < (2 : ℚ) ^ ((natLog2 num : ℤ) - natLog2 den - 1)
          * (2 : ℚ) ^ (natLog2 den + 1) :=
          mul_lt_mul_of_pos_left h2 (by positivity)
    _ = (2 : ℚ) ^ natLog2 num := key
    _ ≤ num := h1
  unfold floorLog2Frac
  by_cases hp : pow2LeFrac ((natLog2 num : ℤ) - natLog2 den) num den = true
  · rw [if_pos hp]
    exact ⟨(pow2LeFrac_iff _ _ _ hden).mp hp, hub⟩
  · rw [if_neg hp]
    constructor
    · exact le_of_lt hlb
    · have hnle : ¬ ((2 : ℚ) ^ ((natLog2 num : ℤ) - natLog2 den)
          ≤ (num : ℚ) / den) :=
        fun hle => hp ((pow2LeFrac_iff _ _ _ hden).mpr hle)
      rw [show ((natLog2 num : ℤ) - natLog2 den - 1 + 1 : ℤ)
          = (natLog2 num : ℤ) - natLog2 den by ring]
      exact not_le.mp hnle

/-- A quotient that is itself representable with a 53-bit coefficient at a
quantum of at least `2^-1074` is a fixed point of binary64 rounding. -/
theorem roundDoubleFrac_exact (num den c : ℕ) (k : ℤ)
    (hnum : 1 ≤ num) (hden : 1 ≤ den) (hcb : c < 2 ^ 53)
    (hk : -1074 ≤ k) (hval : (num : ℚ) / den = (c : ℚ) * (2 : ℚ) ^ k) :
    roundDoubleFrac num den = (num : ℚ) / den := by
  have hdenQ : (0 : ℚ) < den := by exact_mod_cast hden
  obtain ⟨hlow, hhigh⟩ := floorLog2Frac_bracket num den hnum hden
  have hnum0 : (num : ℚ) = (c : ℚ) * (2 : ℚ) ^ k * den := by
    rw [div_eq_iff (ne_of_gt hdenQ)] at hval
    exact hval
  have hek : floorLog2Frac num den ≤ k + 52 := by
    by_contra hcon
    push_neg at hcon
    have h1 : (num : ℚ) / den < (2 : ℚ) ^ (k + 53) := by
      rw [hval]
      have hcQ : (c : ℚ) < (2 : ℚ) ^ (53 : ℕ) := by exact_mod_cast hcb
      calc (c : ℚ) * (2 : ℚ) ^ k < (2 : ℚ) ^ (53 : ℕ) * (2 : ℚ) ^ k :=
        mul_lt_mul_of_pos_right hcQ (by positivity)
      _ = (2 : ℚ) ^ (k + 53) := by
        rw [← zpow_natCast (2 : ℚ) 53, ← zpow_add₀ (by norm_num : (2 : ℚ) ≠ 0)]
        congr 1
        ring
    have h2 : (2 : ℚ) ^ (k + 53) ≤ (2 : ℚ) ^ floorLog2Frac num den :=
      zpow_le_zpow_right₀ (by norm_num) (by omega)
    linarith
  have hqk : doubleQuantum num den ≤ k := by
    unfold doubleQuantum
    omega
  by_cases hqe : doubleQuantum num den ≤ 0
  · -- subnormal-side scale: multiply the numerator up
    obtain ⟨s, hs⟩ : ∃ s : ℕ, doubleQuantum num den = -(s : ℤ) :=
      ⟨(-doubleQuantum num den).toNat, by omega⟩
    obtain ⟨u, hu⟩ : ∃ u : ℕ, k - doubleQuantum num den = (u : ℤ) :=
      ⟨(k - doubleQuantum num den).toNat, by omega⟩
    have hZ : (num : ℤ) * 2 ^ s = (c : ℤ) * 2 ^ u * den := by
      have hpow : ((2 : ℚ) ^ k) * 2 ^ s = 2 ^ u := by
        rw [← zpow_natCast (2 : ℚ) s, ← zpow_natCast (2 : ℚ) u,
          ← zpow_add₀ (by norm_num : (2 : ℚ) ≠ 0)]
        congr 1
        omega
      have hQ : ((num : ℤ) * 2 ^ s : ℚ) = ((c : ℤ) * 2 ^ u * den : ℚ) := by
        push_cast
        rw [hnum0, show (c : ℚ) * 2 ^ k * den * 2 ^ s
          = (c : ℚ) * (2 ^ k * 2 ^ s) * den from by ring, hpow]
      exact_mod_cast hQ
    have hm : doubleMantissa num den = (c : ℤ) * 2 ^ u := by
      unfold doubleMantissa
      rw [if_pos hqe]
      rw [show (-doubleQuantum num den).toNat = s by omega]
      rw [hZ]
      exact rhe_exact _ _ (by exact_mod_cast hden)
    unfold roundDoubleFrac
    rw [if_neg (by omega), hm, hs]
    push_cast
    rw [hnum0]
    have h2 : (2 : ℚ) ^ (-(s : ℤ)) = ((2 : ℚ) ^ s)⁻¹ := by
      rw [zpow_neg, zpow_natCast]
    rw [h2]
    have hku : (2 : ℚ) ^ u = (2 : ℚ) ^ k * 2 ^ s := by
      rw [← zpow_natCast (2 : ℚ) s, ← zpow_natCast (2 : ℚ) u,
        ← zpow_add₀ (by norm_num : (2 : ℚ) ≠ 0)]
      congr 1
      omega
    rw [hku]
    field_simp
    ring
  · -- normal scale above 2^52: multiply the denominator up
    push_neg at hqe
    obtain ⟨t, ht⟩ : ∃ t : ℕ, doubleQuantum num den = (t : ℤ) :=
      ⟨(doubleQuantum num den).toNat, by omega⟩
    obtain ⟨u, hu⟩ : ∃ u : ℕ, k - doubleQuantum num den = (u : ℤ) :=
      ⟨(k - doubleQuantum num den).toNat, by omega⟩
    have hZ : (num : ℤ) = (c : ℤ) * 2 ^ u * (den * 2 ^ t) := by
      have hpow : (2 : ℚ) ^ k = 2 ^ u * 2 ^ t := by
        rw [← zpow_natCast (2 : ℚ) t, ← zpow_natCast (2 : ℚ) u,
          ← zpow_add₀ (by norm_num : (2 : ℚ) ≠ 0)]
        congr 1
        omega
      have hQ : ((num : ℤ) : ℚ) = ((c : ℤ) * 2 ^ u * (den * 2 ^ t) : ℚ) := by
        push_cast
        rw [hnum0, hpow]
        ring
      exact_mod_cast hQ
    have hm : doubleMantissa num den = (c : ℤ) * 2 ^ u := by
      unfold doubleMantissa
      rw [if_neg (by omega)]
      rw [show (doubleQuantum num den).toNat = t by omega]
      rw [hZ]
      exact rhe_exact _ _ (by positivity)
    unfold roundDoubleFrac
    rw [if_neg (by omega), hm, ht]
    push_cast
    rw [hnum0]
    have hku : (2 : ℚ) ^ k = (2 : ℚ) ^ u * 2 ^ t := by
      rw [← zpow_natCast (2 : ℚ) t, ← zpow_natCast (2 : ℚ) u,
        ← zpow_add₀ (by norm_num : (2 : ℚ) ≠ 0)]
      congr 1
      omega
    rw [zpow_natCast, hku]
    field_simp
    ring

/-- Binary64 rounding is correct: the result is never more than half a
quantum away from the exact quotient. -/
theorem roundDoubleFrac_nearest (num den : ℕ) (hnum : 1 ≤ num) (hden : 1 ≤ den) :
    |roundDoubleFrac num den - (num : ℚ) / den|
      ≤ (2 : ℚ) ^ (doubleQuantum num den - 1) := by
  have hdenQ : (0 : ℚ) < den := by exact_mod_cast hden
  by_cases hqe : doubleQuantum num den ≤ 0
  · obtain ⟨s, hs⟩ : ∃ s : ℕ, doubleQuantum num den = -(s : ℤ) :=
      ⟨(-doubleQuantum num den).toNat, by omega⟩
    have hX := rhe_nearest ((num : ℤ) * 2 ^ s) den (by exact_mod_cast hden)
    set m := rhe ((num : ℤ) * 2 ^ s) den with hm
    have hmdef : doubleMantissa num den = m := by
      unfold doubleMantissa
      rw [if_pos hqe, show (-doubleQuantum num den).toNat = s by omega]
    have hval : roundDoubleFrac num den = (m : ℚ) * ((2 : ℚ) ^ s)⁻¹ := by
      unfold roundDoubleFrac
      rw [if_neg (by omega), hmdef, hs, zpow_neg, zpow_natCast]
    have key : roundDoubleFrac num den - (num : ℚ) / den
        = ((m * den - num * 2 ^ s : ℤ) : ℚ) / (den * 2 ^ s) := by
      rw [hval]
      push_cast
      field_simp
      ring
    rw [key, show (doubleQuantum num den - 1 : ℤ) = -((s + 1 : ℕ) : ℤ) by
        push_cast; omega,
      zpow_neg, zpow_natCast]
    have hpos : (0 : ℚ) < (den : ℚ) * 2 ^ s := mul_pos hdenQ (by positivity)
    rw [abs_div, abs_of_pos hpos, div_le_iff₀ hpos]
    have hc1 : ((-(den : ℤ) : ℤ) : ℚ)
        ≤ ((2 * ((num : ℤ) * 2 ^ s - m * den) : ℤ) : ℚ) := by
      exact_mod_cast hX.1
    have hc2 : ((2 * ((num : ℤ) * 2 ^ s - m * den) : ℤ) : ℚ)
        ≤ (((den : ℤ) : ℤ) : ℚ) := by
      exact_mod_cast hX.2
    push_cast at hc1 hc2
    have hb : |((m * den - num * 2 ^ s : ℤ) : ℚ)| ≤ (den : ℚ) / 2 := by
      rw [abs_le]
      constructor
      · push_cast
        linarith
      · push_cast
        linarith
    calc |((m * den - num * 2 ^ s : ℤ) : ℚ)| ≤ (den : ℚ) / 2 := hb
    _ = ((2 : ℚ) ^ (s + 1))⁻¹ * (den * 2 ^ s) := by
        rw [pow_succ]
        field_simp
        ring
  · push_neg at hqe
    obtain ⟨t, ht⟩ : ∃ t : ℕ, doubleQuantum num den = (t : ℤ) :=
      ⟨(doubleQuantum num den).toNat, by omega⟩
    have hX := rhe_nearest (num : ℤ) ((den : ℤ) * 2 ^ t) (by positivity)
    set m := rhe (num : ℤ) ((den : ℤ) * 2 ^ t) with hm
    have hmdef : doubleMantissa num den = m := by
      unfold doubleMantissa
      rw [if_neg (by omega), show (doubleQuantum num den).toNat = t by omega]
    have hval : roundDoubleFrac num den = (m : ℚ) * (2 : ℚ) ^ t := by
      unfold roundDoubleFrac
      rw [if_neg (by omega), hmdef, ht, zpow_natCast]
    have key : roundDoubleFrac num den - (num : ℚ) / den
        = ((m * (den * 2 ^ t) - num : ℤ) : ℚ) / den := by
      rw [hval]
      push_cast
      field_simp
      ring
    have hrhs : (2 : ℚ) ^ (doubleQuantum num den - 1)
        = (2 : ℚ) ^ t / 2 := by
      rw [ht, show ((t : ℤ) - 1 : ℤ) = (t : ℤ) + (-1) by ring,
        zpow_add₀ (by norm_num : (2 : ℚ) ≠ 0), zpow_natCast]
      norm_num
      ring
    rw [key, hrhs, abs_div, abs_of_pos hdenQ,
      div_le_div_iff₀ hdenQ (by norm_num)]
    have h1 : ((-((den : ℤ) * 2 ^ t) : ℤ) : ℚ)
        ≤ ((2 * ((num : ℤ) - m * ((den : ℤ) * 2 ^ t)) : ℤ) : ℚ) := by
      exact_mod_cast hX.1
    have h2 : ((2 * ((num : ℤ) - m * ((den : ℤ) * 2 ^ t)) : ℤ) : ℚ)
        ≤ (((den : ℤ) * 2 ^ t : ℤ) : ℚ) := by
      exact_mod_cast hX.2
    push_cast at h1 h2
    have hb : |((m * (den * 2 ^ t) - num : ℤ) : ℚ)|
        ≤ ((den : ℚ) * 2 ^ t) / 2 := by
      rw [abs_le]
      constructor
      · push_cast
        linarith
      · push_cast
        linarith
    linarith [hb]

/-- C2 counterexample: `10^26` (27 digits) is a non-negative decimal input
with zero fractional digits, but its paise count needs 29 digits, so
`quantize` signals `InvalidOperation` and the parse fails — there is no
round-trip value at all for this input. -/
theorem C2_roundtrip_counterexample :
    decFromChars (pyStrip "100000000000000000000000000").toList
      = some (.fin 100000000000000000000000000 0) ∧
    _parse_amount (.vStr "100000000000000000000000000")
      = (none, some "Amount must be a valid number") := by
  exact ⟨by decide, by decide⟩

/-- C2 (amended): for every non-negative decimal input (string, float repr
or int) with at most two fractional digits whose paise value `z` is below
`10^28`, parsing yields exactly `z` minor units; the conversion back to
major units when listing is Python float division `amount_paise / 100` —
the binary64 double nearest to the exact quotient — which is proven
correctly rounded here: it is the exact quotient itself whenever that
quotient is representable with a 53-bit coefficient (so e.g. paise 15050
lists back as exactly `150.5`), and is otherwise at most half a quantum
away (so the only error is the one float rounding any JSON number
undergoes); beyond 53-bit paise counts the exact round trip genuinely
fails: paise `10^20 + 1` lists back as exactly `10^18`. -/
theorem C2_roundtrip_amended :
    (∀ (s : String) (m : ℤ) (e : ℕ) (z : ℤ),
      decFromChars (pyStrip s).toList = some (.fin m e) →
      (m : ℚ) / 10 ^ e = (z : ℚ) / 100 →
      0 ≤ z → z < 10 ^ 28 →
      _parse_amount (.vStr s) = (some z, none)) ∧
    (∀ (r : String) (m : ℤ) (e : ℕ) (z : ℤ),
      decFromChars r.toList = some (.fin m e) →
      (m : ℚ) / 10 ^ e = (z : ℚ) / 100 →
      0 ≤ z → z < 10 ^ 28 →
      _parse_amount (.vFloat r) = (some z, none)) ∧
    (∀ n : ℤ, 0 ≤ n → 100 * n < 10 ^ 28 →
      _parse_amount (.vInt n) = (some (100 * n), none)) ∧
    (∀ (num den c : ℕ) (k : ℤ), 1 ≤ num → 1 ≤ den → c < 2 ^ 53 →
      -1074 ≤ k → (num : ℚ) / den = (c : ℚ) * (2 : ℚ) ^ k →
      roundDoubleFrac num den = (num : ℚ) / den) ∧
    (∀ num den : ℕ, 1 ≤ num → 1 ≤ den →
      |roundDoubleFrac num den - (num : ℚ) / den|
        ≤ (2 : ℚ) ^ (doubleQuantum num den - 1)) ∧
    (_row_to_expense ⟨1, 15050, "Food", "", "2025-02-18", "T"⟩).amount
      = (15050 : ℚ) / 100 ∧
    pyDivide100 100000000000000000001 = (1000000000000000000 : ℚ) ∧
    (1000000000000000000 : ℚ) ≠ (100000000000000000001 : ℚ) / 100 := by
  refine ⟨?_, ?_, ?_, ?_, ?_, ?_, ?_, by norm_num⟩
  · intro s m e z hdec hval hz hbound
    rw [parse_amount_eq _ (by simp)]
    have hconv : decOfPyVal (.vStr s) = some (.fin m e) := hdec
    rw [hconv]
    exact amountFromDec_exact m e z hval hz hbound
  · intro r m e z hdec hval hz hbound
    rw [parse_amount_eq _ (by simp)]
    have hconv : decOfPyVal (.vFloat r) = some (.fin m e) := hdec
    rw [hconv]
    exact amountFromDec_exact m e z hval hz hbound
  · intro n hn hbound
    rw [parse_amount_eq _ (by simp)]
    rw [show decOfPyVal (.vInt n) = some (.fin n 0) from rfl]
    refine amountFromDec_exact n 0 (100 * n) ?_ (by positivity) hbound
    rw [pow_zero, div_one]
    push_cast
    ring
  · intro num den c k h1 h2 h3 h4 h5
    exact roundDoubleFrac_exact num den c k h1 h2 h3 h4 h5
  · intro num den h1 h2
    exact roundDoubleFrac_nearest num den h1 h2
  · show pyDivide100 15050 = (15050 : ℚ) / 100
    unfold pyDivide100
    rw [if_neg (by decide), show (15050 : ℤ).natAbs = 15050 from rfl]
    refine roundDoubleFrac_exact 15050 100 301 (-1) (by norm_num) (by norm_num)
      (by norm_num) (by norm_num) ?_
    rw [show (-1 : ℤ) = -((1 : ℕ) : ℤ) from rfl, zpow_neg, zpow_natCast]
    norm_num
  · unfold pyDivide100
    rw [if_neg (by decide),
      show (100000000000000000001 : ℤ).natAbs = 100000000000000000001 from rfl]
    unfold roundDoubleFrac
    rw [if_neg (by decide),
      show doubleMantissa 100000000000000000001 100 = 7812500000000000 from
        by decide,
      show doubleQuantum 100000000000000000001 100 = 7 from by decide,
      show (7 : ℤ) = ((7 : ℕ) : ℤ) from rfl, zpow_natCast]
    norm_num

/-- Witness for C2 at 15050 paise (`"150.50"`): the parse is exact and the
listed double is exactly `150.5`. -/
theorem C2_roundtrip_amended_witness :
    _parse_amount (.vStr "150.50") = (some 15050, none) ∧
      roundDoubleFrac 15050 100 = (15050 : ℚ) / 100 :=
  ⟨C2_roundtrip_amended.1 "150.50" 15050 2 15050 (by decide) (by norm_num)
      (by norm_num) (by norm_num),
    C2_roundtrip_amended.2.2.2.1 15050 100 301 (-1) (by norm_num) (by norm_num)
      (by norm_num) (by norm_num) (by
        rw [show (-1 : ℤ) = -((1 : ℕ) : ℤ) from rfl, zpow_neg, zpow_natCast]
        norm_num)⟩

/-- C3 counterexample: with a whitespace-only `Idempotency-Key` header and a
non-empty body, the key used is not the body fingerprint — the trimmed header
is the empty string, which the create path treats as no key at all, so two
identical requests insert two distinct rows instead of one. -/
theorem C3_key_counterexample :
    usedIdempotencyKey (fun s => String.append "sha:" s) (some " ") "BODY"
      = none ∧
    ¬ usedIdempotencyKey (fun s => String.append "sha:" s) (some " ") "BODY"
        = some (String.append "sha:" "BODY") ∧
    create_expense (fun s => String.append "sha:" s) DB.empty (some " ") "BODY"
        (some [("amount", .vInt 5), ("category", .vStr "Food"),
          ("description", .vStr "x"), ("date", .vStr "2025-02-18")]) "T1"
      = some (.created (_row_to_expense ⟨1, 500, "Food", "x", "2025-02-18", "T1"⟩),
          ⟨[⟨1, 500, "Food", "x", "2025-02-18", "T1"⟩], [], 2⟩) ∧
    create_expense (fun s => String.append "sha:" s)
        ⟨[⟨1, 500, "Food", "x", "2025-02-18", "T1"⟩], [], 2⟩ (some " ") "BODY"
        (some [("amount", .vInt 5), ("category", .vStr "Food"),
          ("description", .vStr "x"), ("date", .vStr "2025-02-18")]) "T2"
      = some (.created (_row_to_expense ⟨2, 500, "Food", "x", "2025-02-18", "T2"⟩),
          ⟨[⟨1, 500, "Food", "x", "2025-02-18", "T1"⟩,
            ⟨2, 500, "Food", "x", "2025-02-18", "T2"⟩], [], 3⟩) :=
  ⟨by decide, by decide, by rfl, by rfl⟩

/-- C3 (amended): the idempotency key actually used by create is: the trimmed
header when the raw header is present and non-empty before trimming (which is
`none` — idempotency skipped — when the header was whitespace-only); the
digest of the body when the header is absent or empty and the body is
non-empty; and no key when the header is absent or empty and the body is
empty. -/
theorem C3_key_determination_amended (hash : String → String)
    (header : Option String) (body : String) (h : String) :
    (header = some h → h ≠ "" → pyStrip h ≠ "" →
      usedIdempotencyKey hash header body = some (pyStrip h)) ∧
    (header = some h → h ≠ "" → pyStrip h = "" →
      usedIdempotencyKey hash header body = none) ∧
    ((header = none ∨ header = some "") → body ≠ "" → hash body ≠ "" →
      usedIdempotencyKey hash header body = some (hash body)) ∧
    ((header = none ∨ header = some "") → body = "" →
      usedIdempotencyKey hash header body = none) := by
  refine ⟨?_, ?_, ?_, ?_⟩
  · intro hh hne hstrip
    subst hh
    simp only [usedIdempotencyKey, _get_idempotency_key, Option.getD_some]
    rw [if_pos hne]
    simp [hstrip]
  · intro hh hne hstrip
    subst hh
    simp only [usedIdempotencyKey, _get_idempotency_key, Option.getD_some]
    rw [if_pos hne]
    simp [hstrip]
  · intro hh hbody hhash
    rcases hh with hh | hh <;> subst hh <;>
      simp [usedIdempotencyKey, _get_idempotency_key, hbody, hhash]
  · intro hh hbody
    rcases hh with hh | hh <;> subst hh <;>
      simp [usedIdempotencyKey, _get_idempotency_key, hbody]

/-- Witness for C3 (amended): a padded header key is trimmed and used;
an absent header falls back to the digest of the body. -/
theorem C3_key_determination_amended_witness :
    usedIdempotencyKey (fun s => s) (some " K ") "B" = some (pyStrip " K ") ∧
    usedIdempotencyKey (fun s => String.append "sha:" s) none "B"
      = some (String.append "sha:" "B") :=
  ⟨(C3_key_determination_amended (fun s => s) (some " K ") "B" " K ").1
      rfl (by decide) (by decide),
    (C3_key_determination_amended (fun s => String.append "sha:" s) none "B"
      "").2.2.1 (Or.inl rfl) (by decide) (by decide)⟩

/-- The pattern stage of `strptime('%Y-%m-%d')` only ever yields months in
1..12 and days in 1..31. -/
theorem strptimeYMD_bounds (s : String) (y m d : ℕ)
    (h : strptimeYMD s = some (y, m, d)) :
    1 ≤ m ∧ m ≤ 12 ∧ 1 ≤ d ∧ d ≤ 31 := by
  unfold strptimeYMD at h
  split at h
  · split at h
    · split at h
      · split at h
        · split at h
          · rename_i hrange
            injection h with h'
            rw [Prod.mk.injEq, Prod.mk.injEq] at h'
            obtain ⟨hy, hm, hd⟩ := h'
            subst hm; subst hd
            simp only [Bool.and_eq_true, decide_eq_true_eq] at hrange
            omega
          · exact absurd h (by simp)
        · exact absurd h (by simp)
      · exact absurd h (by simp)
    · exact absurd h (by simp)
  · exact absurd h (by simp)

/-- C4 counterexample: `"2025-2-8"` is not in two-digit-month, two-digit-day
shape, yet create accepts it (a 201 `created` response, not the
`InvalidDateFormat` 400), because `strptime`'s `%m`/`%d` patterns make the
zero padding optional. -/
theorem C4_date_counterexample :
    validDateYMD "2025-2-8" = true ∧
    create_expense (fun s => s) DB.empty none "B"
        (some [("amount", .vInt 1), ("category", .vStr "Food"),
          ("date", .vStr "2025-2-8")]) "T"
      = some (.created (_row_to_expense ⟨1, 100, "Food", "", "2025-2-8", "T"⟩),
          ⟨[⟨1, 100, "Food", "", "2025-2-8", "T"⟩], [("B", 1, "T")], 2⟩) ∧
    ¬ create_expense (fun s => s) DB.empty none "B"
        (some [("amount", .vInt 1), ("category", .vStr "Food"),
          ("date", .vStr "2025-2-8")]) "T"
      = some (.badRequest "Date must be in YYYY-MM-DD format", DB.empty) := by
  refine ⟨by decide, by rfl, ?_⟩
  intro hbad
  rw [show create_expense (fun s => s) DB.empty none "B"
      (some [("amount", .vInt 1), ("category", .vStr "Food"),
        ("date", .vStr "2025-2-8")]) "T"
    = some (.created (_row_to_expense ⟨1, 100, "Food", "", "2025-2-8", "T"⟩),
        ⟨[⟨1, 100, "Food", "", "2025-2-8", "T"⟩], [("B", 1, "T")], 2⟩)
    from rfl] at hbad
  simp at hbad

/-- C4 (amended): the date check is `strptime`-based strict calendar
validation — a four-digit year, a month run of one or two digits in 1..12, a
day run of one or two digits, full-string match, then the `datetime` range
checks (year at least 1, day existing in that month, leap years included) —
but zero padding of month and day is NOT enforced. -/
theorem C4_date_validation_amended :
    (∀ (s : String) (y m d : ℕ), strptimeYMD s = some (y, m, d) →
      1 ≤ m ∧ m ≤ 12 ∧ 1 ≤ d ∧ d ≤ 31) ∧
    (∀ (s : String) (y m d : ℕ), strptimeYMD s = some (y, m, d) →
      (validDateYMD s = true ↔ (1 ≤ y ∧ d ≤ daysInMonth y m))) ∧
    (∀ s : String, strptimeYMD s = none → validDateYMD s = false) ∧
    validDateYMD "2025-02-30" = false ∧
    validDateYMD "2025-13-01" = false ∧
    validDateYMD "0000-01-01" = false ∧
    validDateYMD "2024-02-29" = true ∧
    validDateYMD "2023-02-29" = false ∧
    validDateYMD "2025-02-18" = true ∧
    validDateYMD "2025-2-8" = true := by
  refine ⟨strptimeYMD_bounds, ?_, ?_, by decide, by decide, by decide,
    by decide, by decide, by decide, by decide⟩
  · intro s y m d h
    unfold validDateYMD
    rw [h]
    simp
  · intro s h
    unfold validDateYMD
    rw [h]

/-- Witness for C4 (amended) at `"2025-02-18"`. -/
theorem C4_date_validation_amended_witness :
    validDateYMD "2025-02-18" = true ↔
      (1 ≤ 2025 ∧ 18 ≤ daysInMonth 2025 2) :=
  C4_date_validation_amended.2.1 "2025-02-18" 2025 2 18 (by decide)

/-- C5 counterexample: the empty object is a parseable JSON body, and its
amount check would fail with the field-specific message "Amount is required";
but the handler's `if not data:` treats the falsy empty dict like an
unparseable body, answers "Invalid JSON", and never runs validation. -/
theorem C5_order_counterexample :
    create_expense (fun s => s) DB.empty none "\x7b\x7d" (some []) "T"
      = some (.badRequest "Invalid JSON", DB.empty) ∧
    _parse_amount (dictGet [] "amount") = (none, some "Amount is required") ∧
    "Invalid JSON" ≠ "Amount is required" :=
  ⟨by rfl, by decide, by decide⟩

/-- C5 (amended): for a body that parses to a NON-empty JSON object whose
category, description and date fields do not make the handler fault,
validation runs in the fixed order amount (the Money Parser's message
propagates), then category, then empty date, then date format; the first
failure wins, its field-specific message is the 400 response, and the store
is unchanged. -/
theorem C5_validation_order_amended (hash : String → String) (db : DB)
    (header : Option String) (body : String) (fields : List (String × PyVal))
    (now : String) (cat desc date : String)
    (hne : fields ≠ [])
    (hcat : pyOrEmptyStrip (dictGet fields "category") = some cat)
    (hdesc : pyOrEmptyStrip (dictGet fields "description") = some desc)
    (hdate : pyOrEmptyStrip (dictGet fields "date") = some date) :
    (∀ msg : String, _parse_amount (dictGet fields "amount") = (none, some msg) →
      create_expense hash db header body (some fields) now
        = some (.badRequest msg, db)) ∧
    (∀ paise : ℤ, _parse_amount (dictGet fields "amount") = (some paise, none) →
      cat = "" →
      create_expense hash db header body (some fields) now
        = some (.badRequest "Category is required", db)) ∧
    (∀ paise : ℤ, _parse_amount (dictGet fields "amount") = (some paise, none) →
      cat ≠ "" → date = "" →
      create_expense hash db header body (some fields) now
        = some (.badRequest "Date is required", db)) ∧
    (∀ paise : ℤ, _parse_amount (dictGet fields "amount") = (some paise, none) →
      cat ≠ "" → date ≠ "" → validDateYMD date = false →
      create_expense hash db header body (some fields) now
        = some (.badRequest "Date must be in YYYY-MM-DD format", db)) := by
  match fields, hne with
  | f :: fs, _ =>
    refine ⟨?_, ?_, ?_, ?_⟩
    · intro msg hmsg
      simp only [create_expense, List.isEmpty_cons, Bool.false_eq_true, if_false,
        hcat, hdesc, hdate, hmsg]
    · intro paise hamt hcatempty
      simp only [create_expense, List.isEmpty_cons, Bool.false_eq_true, if_false,
        hcat, hdesc, hdate, hamt]
      rw [if_pos hcatempty]
    · intro paise hamt hcatne hdateempty
      simp only [create_expense, List.isEmpty_cons, Bool.false_eq_true, if_false,
        hcat, hdesc, hdate, hamt]
      rw [if_neg hcatne, if_pos hdateempty]
    · intro paise hamt hcatne hdatene hbad
      simp only [create_expense, List.isEmpty_cons, Bool.false_eq_true, if_false,
        hcat, hdesc, hdate, hamt, hbad, Bool.not_false]
      rw [if_neg hcatne, if_neg hdatene]
      simp

/-- Witness for C5 (amended): a bad amount wins over an also-empty category
and an also-empty date, with the store left unchanged. -/
theorem C5_validation_order_amended_witness :
    create_expense (fun s => s) DB.empty none "B"
        (some [("amount", .vStr "abc"), ("category", .vStr ""),
          ("date", .vStr "")]) "T"
      = some (.badRequest "Amount must be a valid number", DB.empty) :=
  (C5_validation_order_amended (fun s => s) DB.empty none "B"
      [("amount", .vStr "abc"), ("category", .vStr ""), ("date", .vStr "")]
      "T" "" "" "" (by decide) (by decide) (by decide) (by decide)).1
    "Amount must be a valid number" (by decide)

/-- C6 counterexample: the body `"\x7b\x7d"` parses to the empty JSON object —
it is neither absent nor unparseable — yet create answers "Invalid JSON"
instead of the `MissingAmount` message "Amount is required". -/
theorem C6_invalid_json_counterexample :
    create_expense (fun s => s) DB.empty none "\x7b\x7d" (some []) "T"
      = some (.badRequest "Invalid JSON", DB.empty) ∧
    ¬ create_expense (fun s => s) DB.empty none "\x7b\x7d" (some []) "T"
        = some (.badRequest "Amount is required", DB.empty) := by
  refine ⟨by rfl, ?_⟩
  intro hbad
  rw [show create_expense (fun s => s) DB.empty none "\x7b\x7d" (some []) "T"
      = some (.badRequest "Invalid JSON", DB.empty) from rfl] at hbad
  simp at hbad

/-- C6 (amended): "Invalid JSON" is the answer when the body is absent or
unparseable AND ALSO when it parses to the falsy empty object; the
`MissingAmount` message "Amount is required" is the answer only for a
non-empty object that supplies no amount value.  The store is untouched
either way. -/
theorem C6_invalid_json_amended (hash : String → String) (db : DB)
    (header : Option String) (body : String) (fields : List (String × PyVal))
    (now : String) (cat desc date : String) :
    (create_expense hash db header body none now
      = some (.badRequest "Invalid JSON", db)) ∧
    (create_expense hash db header body (some []) now
      = some (.badRequest "Invalid JSON", db)) ∧
    (fields ≠ [] → dictGet fields "amount" = .vNone →
      pyOrEmptyStrip (dictGet fields "category") = some cat →
      pyOrEmptyStrip (dictGet fields "description") = some desc →
      pyOrEmptyStrip (dictGet fields "date") = some date →
      create_expense hash db header body (some fields) now
        = some (.badRequest "Amount is required", db)) := by
  refine ⟨rfl, rfl, ?_⟩
  intro hne hamt hcat hdesc hdate
  match fields, hne with
  | f :: fs, _ =>
    simp only [create_expense, List.isEmpty_cons, Bool.false_eq_true, if_false,
      hcat, hdesc, hdate, hamt]
    rfl

/-- Witness for C6 (amended): `{"category": "Food"}` has no amount and gets
"Amount is required". -/
theorem C6_invalid_json_amended_witness :
    create_expense (fun s => s) DB.empty none "B"
        (some [("category", .vStr "Food")]) "T"
      = some (.badRequest "Amount is required", DB.empty) :=
  (C6_invalid_json_amended (fun s => s) DB.empty none "B"
      [("category", .vStr "Food")] "T" "Food" "" "").2.2
    (by decide) (by decide) (by decide) (by decide) (by decide)

/-- C7: the list endpoint returns exactly the rows whose category equals the
non-empty trimmed filter (all rows otherwise) — a permutation of that set,
every returned item matching — ordered ascending by (date, created_at) when
`sort=date_asc` and descending by (date, created_at) for any other sort
value. -/
theorem C7_list_filter_sort (db : DB) (catP sortP : String) :
    (get_expenses db catP sortP).Perm
      ((if pyStrip catP ≠ "" then
          db.expenses.filter (fun r => r.category = pyStrip catP)
        else db.expenses).map _row_to_expense) ∧
    (∀ e ∈ get_expenses db catP sortP, pyStrip catP ≠ "" →
      e.category = pyStrip catP) ∧
    (pyStrip sortP = "date_asc" →
      (get_expenses db catP sortP).Pairwise outAscLE) ∧
    (pyStrip sortP ≠ "date_asc" →
      (get_expenses db catP sortP).Pairwise outDescLE) := by
  rcases eq_or_ne (pyStrip sortP) "date_asc" with hs | hs
  · have hget : get_expenses db catP sortP
        = (List.insertionSort dateAscLE
            (if pyStrip catP ≠ "" then
              db.expenses.filter (fun r => r.category = pyStrip catP)
            else db.expenses)).map _row_to_expense := by
      simp [get_expenses, hs]
    refine ⟨?_, ?_, ?_, ?_⟩
    · rw [hget]
      exact (List.perm_insertionSort dateAscLE _).map _
    · intro e he hne
      rw [hget] at he
      obtain ⟨r, hr, rfl⟩ := List.mem_map.mp he
      have hr' := (List.perm_insertionSort dateAscLE _).subset hr
      rw [if_pos hne] at hr'
      have := (List.mem_filter.mp hr').2
      simpa using this
    · intro _
      rw [hget]
      exact List.pairwise_map.mpr
        ((List.sorted_insertionSort dateAscLE _).imp (fun h => h))
    · intro hne
      exact absurd hs hne
  · have hget : get_expenses db catP sortP
        = (List.insertionSort dateDescLE
            (if pyStrip catP ≠ "" then
              db.expenses.filter (fun r => r.category = pyStrip catP)
            else db.expenses)).map _row_to_expense := by
      simp [get_expenses, hs]
    refine ⟨?_, ?_, ?_, ?_⟩
    · rw [hget]
      exact (List.perm_insertionSort dateDescLE _).map _
    · intro e he hne
      rw [hget] at he
      obtain ⟨r, hr, rfl⟩ := List.mem_map.mp he
      have hr' := (List.perm_insertionSort dateDescLE _).subset hr
      rw [if_pos hne] at hr'
      have := (List.mem_filter.mp hr').2
      simpa using this
    · intro hs'
      exact absurd hs' hs
    · intro _
      rw [hget]
      exact List.pairwise_map.mpr
        ((List.sorted_insertionSort dateDescLE _).imp (fun h => h))

/-- Witness for C7 on a two-row store: ascending order under `date_asc`,
descending order under any other sort value. -/
theorem C7_list_filter_sort_witness :
    (get_expenses ⟨[⟨1, 100, "Food", "x", "2025-02-16", "A"⟩,
        ⟨2, 100, "X", "x", "2025-02-18", "B"⟩], [], 3⟩ "" "date_asc").Pairwise
      outAscLE ∧
    (get_expenses ⟨[⟨1, 100, "Food", "x", "2025-02-16", "A"⟩,
        ⟨2, 100, "X", "x", "2025-02-18", "B"⟩], [], 3⟩ "" "zzz").Pairwise
      outDescLE :=
  ⟨(C7_list_filter_sort ⟨[⟨1, 100, "Food", "x", "2025-02-16", "A"⟩,
      ⟨2, 100, "X", "x", "2025-02-18", "B"⟩], [], 3⟩ "" "date_asc").2.2.1 rfl,
    (C7_list_filter_sort ⟨[⟨1, 100, "Food", "x", "2025-02-16", "A"⟩,
      ⟨2, 100, "X", "x", "2025-02-18", "B"⟩], [], 3⟩ "" "zzz").2.2.2
      (by decide)⟩

/-- C8 counterexample: `"1e30"` IS interpretable as a (non-negative) decimal
number — the `Decimal` constructor accepts it — yet the parser fails with the
`InvalidAmount` message, because quantizing to paise would need a 33-digit
coefficient and the 28-digit context signals `InvalidOperation`.  So the
three advertised cases are not the only failures. -/
theorem C8_amount_parser_counterexample :
    decFromChars (pyStrip "1e30").toList
      = some (.fin 1000000000000000000000000000000 0) ∧
    (0 : ℤ) ≤ 1000000000000000000000000000000 ∧
    _parse_amount (.vStr "1e30")
      = (none, some "Amount must be a valid number") :=
  ⟨by decide, by decide, by decide⟩

/-- C8 (amended): the parser fails exactly with `MissingAmount` on a missing
value, `NegativeAmount` on a parsed decimal below zero (including
`-Infinity`), and the `InvalidAmount` message both when the value cannot be
interpreted as a decimal at all and when the quantized paise coefficient
overflows the 28-digit decimal context (or the value is NaN/`+Infinity`); on
success it returns the exact minor-unit count. -/
theorem C8_amount_parser_amended :
    _parse_amount .vNone = (none, some "Amount is required") ∧
    _parse_amount (.vStr "abc")
      = (none, some "Amount must be a valid number") ∧
    _parse_amount (.vInt (-1)) = (none, some "Amount must be non-negative") ∧
    _parse_amount (.vInt 100) = (some 10000, none) ∧
    _parse_amount (.vFloat "99.99") = (some 9999, none) ∧
    _parse_amount (.vStr "50.50") = (some 5050, none) ∧
    "Amount is required" ≠ "" ∧
    "Amount must be a valid number" ≠ "" ∧
    "Amount must be non-negative" ≠ "" ∧
    (∀ v : PyVal, v ≠ .vNone → decOfPyVal v = none →
      _parse_amount v = (none, some "Amount must be a valid number")) ∧
    (∀ (v : PyVal) (m : ℤ) (e : ℕ), v ≠ .vNone →
      decOfPyVal v = some (.fin m e) → m < 0 →
      _parse_amount v = (none, some "Amount must be non-negative")) ∧
    (∀ (v : PyVal) (m : ℤ) (e : ℕ), v ≠ .vNone →
      decOfPyVal v = some (.fin m e) → 0 ≤ m →
      (rhe (m * 100) (10 ^ e)).natAbs < 10 ^ 28 →
      _parse_amount v = (some (rhe (m * 100) (10 ^ e)), none)) := by
  refine ⟨by decide, by decide, by decide, by decide, by decide, by decide,
    by decide, by decide, by decide, ?_, ?_, ?_⟩
  · intro v hv hdec
    rw [parse_amount_eq v hv, hdec]
    rfl
  · intro v m e hv hdec hm
    rw [parse_amount_eq v hv, hdec]
    simp only [amountFromDec]
    rw [if_pos hm]
  · intro v m e hv hdec hm hfit
    rw [parse_amount_eq v hv, hdec]
    simp only [amountFromDec, quantizePaise]
    rw [if_neg (not_lt.mpr hm), if_pos hfit]

/-- Witness for C8 (amended): the success case at the string `"2"`. -/
theorem C8_amount_parser_amended_witness :
    _parse_amount (.vStr "2") = (some (rhe (2 * 100) (10 ^ 0)), none) :=
  C8_amount_parser_amended.2.2.2.2.2.2.2.2.2.2.2 (.vStr "2") 2 0
    (by decide) (by decide) (by decide) (by decide)

/-- C9 counterexample: `-Infinity` survives decimal parsing but is NOT caught
by the `InvalidOperation` handler (whose message is the invalid-number one):
the `dec < 0` comparison is simply true for it, so the error is the
`NegativeAmount` message. -/
theorem C9_minus_infinity_counterexample :
    decFromChars (pyStrip "-Infinity").toList = some (.inf true) ∧
    _parse_amount (.vStr "-Infinity")
      = (none, some "Amount must be non-negative") ∧
    "Amount must be non-negative" ≠ "Amount must be a valid number" :=
  ⟨by decide, by decide, by decide⟩

/-- C9 (amended): the amount parser is total and safe — every input yields
either a non-negative integer with no error or no value with a non-empty
error message (never an exception, never a negative paise count).  NaN is
caught signalling at the comparison and `+Infinity` at quantization, both
through the `InvalidOperation` handler; `-Infinity` is instead rejected by
the negativity check. -/
theorem C9_parser_safety_amended :
    (∀ v : PyVal,
      (∃ p : ℤ, 0 ≤ p ∧ _parse_amount v = (some p, none)) ∨
      (∃ msg : String, msg ≠ "" ∧ _parse_amount v = (none, some msg))) ∧
    _parse_amount (.vStr "NaN")
      = (none, some "Amount must be a valid number") ∧
    _parse_amount (.vStr "Infinity")
      = (none, some "Amount must be a valid number") ∧
    _parse_amount (.vStr "-Infinity")
      = (none, some "Amount must be non-negative") ∧
    _parse_amount (.vBool true)
      = (none, some "Amount must be a valid number") ∧
    _parse_amount (.vBool false)
      = (none, some "Amount must be a valid number") :=
  ⟨parse_amount_total, by decide, by decide, by decide, by decide, by decide⟩

/-- C10: amounts with more than two fractional digits are rounded
half-to-even — `"0.125"` gives 12 paise, `"0.135"` gives 14 — and the
rounding the parser's `quantize` path uses (`rhe`) is exactly
round-half-even: never more than half a unit away, and landing on an even
integer on exact ties.  The parser is a function of its input, so the result
is deterministic. -/
theorem C10_round_half_even (num den : ℤ) (hd : 0 < den) :
    _parse_amount (.vStr "0.125") = (some 12, none) ∧
    _parse_amount (.vStr "0.135") = (some 14, none) ∧
    (-den ≤ 2 * (num - rhe num den * den) ∧
      2 * (num - rhe num den * den) ≤ den) ∧
    (2 * (num % den) = den → rhe num den % 2 = 0) :=
  ⟨by decide, by decide, rhe_nearest num den hd, rhe_tie_even num den⟩

/-- Witness for C10 at `25 / 10` (an exact tie): at most half a unit away and
even. -/
theorem C10_round_half_even_witness :
    (0 : ℤ) < 10 ∧
    (-10 ≤ 2 * (25 - rhe 25 10 * 10) ∧ 2 * (25 - rhe 25 10 * 10) ≤ 10) ∧
    (2 * ((25 : ℤ) % 10) = 10 → rhe 25 10 % 2 = 0) :=
  ⟨by decide, (C10_round_half_even 25 10 (by decide)).2.2.1,
    (C10_round_half_even 25 10 (by decide)).2.2.2⟩
